import Mathlib

/-
Shallow embedding of the keyword-forwarding Telegram bot: `bot.py` (the
polling variant, JSON store) and `bot_webhook.py` (the webhook variant,
SQLite store).

Python strings are modelled as `List Char`.  The Unicode tables consulted
by `str.lower`, `unicodedata.normalize("NFD", _)` and
`unicodedata.combining` are modelled on the fragment the bot manipulates:
ASCII plus the Latin-1 letters and the combining-diacritical block
U+0300..U+036F; outside the tables the functions act as the identity, as
each definition documents.
-/

namespace TgOfertas

/-- Python strings, modelled as lists of Unicode scalar values. -/
abbrev Str := List Char

/-- Model of `unicodedata.combining(ch) != 0`, restricted to the
Combining Diacritical Marks block U+0300..U+036F (identity, i.e. `false`,
elsewhere). -/
def combining (c : Char) : Bool := decide (768 ≤ c.toNat ∧ c.toNat ≤ 879)

/-- Model of Python `str.lower` on one character: ASCII `A`..`Z` and the
Latin-1 uppercase letters `À`..`Þ` (except `×`, U+00D7) move down by 32;
identity elsewhere. -/
def lowerChar (c : Char) : Char :=
  if (65 ≤ c.toNat ∧ c.toNat ≤ 90) ∨ (192 ≤ c.toNat ∧ c.toNat ≤ 222 ∧ c.toNat ≠ 215) then
    Char.ofNat (c.toNat + 32)
  else c

/-- Canonical (NFD) decompositions of the precomposed Latin-1 lowercase
letters used by the bot's keyword data. -/
def nfdTable : List (Char × List Char) :=
  [('à', ['a', Char.ofNat 768]), ('á', ['a', Char.ofNat 769]), ('â', ['a', Char.ofNat 770]),
   ('ã', ['a', Char.ofNat 771]), ('ä', ['a', Char.ofNat 776]), ('ç', ['c', Char.ofNat 807]),
   ('è', ['e', Char.ofNat 768]), ('é', ['e', Char.ofNat 769]), ('ê', ['e', Char.ofNat 770]),
   ('í', ['i', Char.ofNat 769]), ('ó', ['o', Char.ofNat 769]), ('ô', ['o', Char.ofNat 770]),
   ('õ', ['o', Char.ofNat 771]), ('ú', ['u', Char.ofNat 769]), ('ü', ['u', Char.ofNat 776])]

/-- Model of `unicodedata.normalize("NFD", _)` on one character:
table-driven decomposition, identity outside the table. -/
def nfdChar (c : Char) : List Char :=
  match nfdTable.find? (fun p => p.1 == c) with
  | some p => p.2
  | none => [c]

/-- `concatMap f l` concatenates `f` over `l` (used to apply the per-char
NFD decomposition to a whole string). -/
def concatMap (f : α → List β) : List α → List β
  | [] => []
  | a :: t => f a ++ concatMap f t

/-- `normalize` from `bot.py` lines 53-59 (and identically
`bot_webhook.py` lines 58-63): lowercase, NFD-decompose, drop combining
marks.  The Python guard `if not s: return ""` coincides with the
pipeline on the empty string. -/
def normalize (s : Str) : Str :=
  (concatMap nfdChar (s.map lowerChar)).filter (fun c => !combining c)

/-- Characters split on by Python `str.split()` / stripped by
`str.strip()` (the ASCII whitespace fragment of `str.isspace`). -/
def isSpace (c : Char) : Bool :=
  c == ' ' || c == '\t' || c == '\n' || c == '\r' || c == Char.ofNat 11 || c == Char.ofNat 12

/-- Helper for `splitWs`: accumulates the current (reversed) token. -/
def splitWsAux : Str → Str → List Str
  | [], acc => if acc.isEmpty then [] else [acc.reverse]
  | c :: rest, acc =>
    if isSpace c then
      (if acc.isEmpty then splitWsAux rest [] else acc.reverse :: splitWsAux rest [])
    else splitWsAux rest (c :: acc)

/-- Model of Python `str.split()` (no argument): split on whitespace
runs, discarding empty pieces. -/
def splitWs (s : Str) : List Str := splitWsAux s []

/-- The token list `[t for t in normalize(keyword).split() if t]` of
`text_contains_all_tokens` (`bot.py` line 64, `bot_webhook.py` line 67). -/
def phraseTokens (kw : Str) : List Str :=
  (splitWs (normalize kw)).filter (fun t => !t.isEmpty)

/-- Model of Python `list.startswith`-style prefix test used to define
substring containment. -/
def isPrefOf : Str → Str → Bool
  | [], _ => true
  | _ :: _, [] => false
  | a :: as, b :: bs => a == b && isPrefOf as bs

/-- Model of Python substring containment `needle in hay`. -/
def substrB (needle : Str) : Str → Bool
  | [] => needle.isEmpty
  | c :: t => isPrefOf needle (c :: t) || substrB needle t

/-- `text_contains_all_tokens` from `bot.py` lines 61-65 (identical in
`bot_webhook.py` lines 65-68): every token of the normalized keyword
phrase must occur as a substring of the normalized text. -/
def text_contains_all_tokens (text kw : Str) : Bool :=
  (phraseTokens kw).all (fun tok => substrB tok (normalize text))

/-- Spec-side notion of "contiguous substring". -/
def SubstrOf (tok s : Str) : Prop := ∃ pre post, s = pre ++ tok ++ post

/-- Spec-side matcher contract (spec section 4.2): every whitespace token
of the normalized phrase, empty tokens discarded, is a contiguous
substring of the normalized message text. -/
def matchesSpec (text kw : Str) : Prop :=
  ∀ tok ∈ phraseTokens kw, SubstrOf tok (normalize text)

/-- Boolean conjunction of the per-character fixed-point facts that make
`normalize` collapse on its own output. -/
def normCharOk (d : Char) : Bool :=
  lowerChar d == d && nfdChar d == [d] && !combining d

/-- A subscriber record: the value part of `db["users"][str(user_id)]` in
`bot.py` (a row of `users` joined with its `keywords` rows in
`bot_webhook.py`). -/
structure UserInfo where
  subscribed : Bool
  keywords : List Str
deriving DecidableEq

/-- A watched-chat record: `{"id": .., "title": .., "username": ..}` in
`bot.py`; a `watched_chats` row in `bot_webhook.py`. -/
structure ChatRec where
  id : Int
  title : Str
  username : Str
deriving DecidableEq

/-- The persistent store: `users` keyed by numeric id (association list,
Python-dict insertion order) and the watched chats. -/
structure Db where
  users : List (Nat × UserInfo)
  watched : List ChatRec
deriving DecidableEq

/-- An inbound message: `message.text` and `message.caption`, empty
string standing for Python `None`. -/
structure Msg where
  text : Str
  caption : Str
deriving DecidableEq

/-- Outcome oracle for the transport: whether each outbound call for a
given recipient raises (`false`) or succeeds (`true`).  `headerOk` is the
`send_message` header, `forwardOk` the `forward_message`, `probeOk` the
`send_chat_action` probe of `bot.py`. -/
structure Transport where
  headerOk : Nat → Bool
  forwardOk : Nat → Bool
  probeOk : Nat → Bool

/-- Trace of outbound transport calls made while dispatching one message.
An event records that the call was attempted (it may have raised, per the
`Transport` oracle). -/
inductive Event where
  | header (uid : Nat) (kw : Str)
  | fwd (uid : Nat)
  | probe (uid : Nat)
deriving DecidableEq

/-- The recipient of an event. -/
def evUid : Event → Nat
  | .header u _ => u
  | .fwd u => u
  | .probe u => u

/-- The `for kw in kws: if text_contains_all_tokens(text, kw): ... break`
loop of both `on_message` handlers: the first stored keyword matching the
text, if any. -/
def firstMatch (t : Str) (kws : List Str) : Option Str :=
  kws.find? (fun kw => text_contains_all_tokens t kw)

/-- `text = message.text or message.caption or ""` of both handlers. -/
def matchText (m : Msg) : Str := if m.text.isEmpty then m.caption else m.text

/-- Membership of a chat id in the watched-chat store
(`str(chat.id) in db["watched_chats"]` / `chat.id not in chat_ids`). -/
def watchedHas (db : Db) (cid : Int) : Bool := db.watched.any (fun w => w.id == cid)

/-- The keyword list of a user (empty if the user has no record). -/
def userKeywords (db : Db) (uid : Nat) : List Str :=
  match db.users.find? (fun p => p.1 == uid) with
  | some p => p.2.keywords
  | none => []

/-- The subscribed flag of a user (false if the user has no record). -/
def userSubscribed (db : Db) (uid : Nat) : Bool :=
  match db.users.find? (fun p => p.1 == uid) with
  | some p => p.2.subscribed
  | none => false

/-- `ensure_user_record` of `bot.py` lines 68-70 (`ensure_user`, the
`INSERT OR IGNORE`, in `bot_webhook.py` lines 71-74): provision a fresh
unsubscribed record with no keywords. -/
def ensure_user (db : Db) (uid : Nat) : Db :=
  if db.users.any (fun p => p.1 == uid) then db
  else { db with users := db.users ++ [(uid, ⟨false, []⟩)] }

/-- `add_keyword_for_user` of `bot.py` lines 72-79: append the keyword if
not already present (string-equal, pre-normalization). -/
def add_keyword_for_user (db : Db) (uid : Nat) (kw : Str) : Db × Bool :=
  let db1 := ensure_user db uid
  if (userKeywords db1 uid).contains kw then (db1, false)
  else
    ({ db1 with
        users := db1.users.map (fun p =>
          if p.1 == uid then (p.1, ⟨p.2.subscribed, p.2.keywords ++ [kw]⟩) else p) },
      true)

/-- `del_keyword_for_user` of `bot.py` lines 81-88: `list.remove` drops
the first equal entry. -/
def del_keyword_for_user (db : Db) (uid : Nat) (kw : Str) : Db × Bool :=
  let db1 := ensure_user db uid
  if (userKeywords db1 uid).contains kw then
    ({ db1 with
        users := db1.users.map (fun p =>
          if p.1 == uid then (p.1, ⟨p.2.subscribed, p.2.keywords.erase kw⟩) else p) },
      true)
  else (db1, false)

/-- The `/delpall` handler's store mutation (`bot.py` lines 181-186). -/
def delpall_for_user (db : Db) (uid : Nat) : Db :=
  let db1 := ensure_user db uid
  { db1 with
      users := db1.users.map (fun p =>
        if p.1 == uid then (p.1, ⟨p.2.subscribed, []⟩) else p) }

/-- Python `text.partition(" ")[2]`: everything after the first space
(empty when there is none). -/
def afterFirstSpace : Str → Str
  | [] => []
  | c :: rest => if c == ' ' then rest else afterFirstSpace rest

/-- Python `str.strip()`: drop leading and trailing whitespace. -/
def stripStr (s : Str) : Str := ((s.dropWhile isSpace).reverse.dropWhile isSpace).reverse

/-- The `/addp` handler of `bot.py` lines 141-152.  Reply is modelled as
`none` = usage text (blank argument), `some true` = "added",
`some false` = "already exists". -/
def addp (db : Db) (uid : Nat) (msgText : Str) : Db × Option Bool :=
  let args := stripStr (afterFirstSpace msgText)
  if args.isEmpty then (db, none)
  else
    let r := add_keyword_for_user db uid args
    (r.1, some r.2)

/-- Python `str(i)` for an integer (decimal digits, `-` sign). -/
def intStr (i : Int) : Str := (toString i).toList

namespace BotPoll

/-- The per-chat test of the `/sairgc` lookup loop, `bot.py` line 239:
`arg == str(info["id"]) or arg == info["username"] or
arg.lower() in info["title"].lower()` (one disjunction per chat). -/
def sairgcMatch (arg : Str) (info : ChatRec) : Bool :=
  arg == intStr info.id || arg == info.username ||
    substrB (arg.map lowerChar) (info.title.map lowerChar)

/-- The `/sairgc` lookup loop of `bot.py` lines 237-241: scan the watched
chats in stored order, stop at the first one matching any heuristic. -/
def sairgcFind (arg : Str) : List ChatRec → Option ChatRec
  | [] => none
  | info :: rest => if sairgcMatch arg info then some info else sairgcFind arg rest

/-- One subscriber's slice of `on_message` in `bot.py` lines 285-318:
skip unsubscribed users and users without keywords; on the first matching
keyword send the header, then the forward; on any delivery exception
probe with `send_chat_action` and, only if the probe also raises, flip
`subscribed` to `false`.  Returns the outbound-call trace and the user's
new `subscribed` flag. -/
def processUser (tr : Transport) (t : Str) (uid : Nat) (info : UserInfo) :
    List Event × Bool :=
  if !info.subscribed then ([], info.subscribed)
  else if info.keywords.isEmpty then ([], info.subscribed)
  else
    match firstMatch t info.keywords with
    | none => ([], info.subscribed)
    | some kw =>
      if tr.headerOk uid then
        if tr.forwardOk uid then ([.header uid kw, .fwd uid], info.subscribed)
        else if tr.probeOk uid then ([.header uid kw, .fwd uid, .probe uid], info.subscribed)
        else ([.header uid kw, .fwd uid, .probe uid], false)
      else if tr.probeOk uid then ([.header uid kw, .probe uid], info.subscribed)
      else ([.header uid kw, .probe uid], false)

/-- The `for user_id_str, user_info in db["users"].items()` loop of
`bot.py` `on_message`: every user is processed; only the current user's
`subscribed` flag may be rewritten. -/
def dispatchUsers (tr : Transport) (t : Str) :
    List (Nat × UserInfo) → List Event × List (Nat × UserInfo)
  | [] => ([], [])
  | p :: rest =>
    let r := processUser tr t p.1 p.2
    let rest' := dispatchUsers tr t rest
    (r.1 ++ rest'.1, (p.1, ⟨r.2, p.2.keywords⟩) :: rest'.2)

/-- `on_message` of `bot.py` lines 270-318: ignore chats outside the
watched set and messages without text/caption, then dispatch to every
subscriber. -/
def on_message (tr : Transport) (db : Db) (chat : ChatRec) (msg : Msg) :
    List Event × Db :=
  if !watchedHas db chat.id then ([], db)
  else if (matchText msg).isEmpty then ([], db)
  else
    let r := dispatchUsers tr (matchText msg) db.users
    (r.1, { db with users := r.2 })

end BotPoll

namespace BotWebhook

/-- `add_keyword` of `bot_webhook.py` lines 92-98: `SELECT 1 ... WHERE
user_id=? AND keyword=?` then `INSERT`; same check-then-append semantics
as the polling variant. -/
def add_keyword (db : Db) (uid : Nat) (kw : Str) : Db × Bool :=
  let db1 := ensure_user db uid
  if (userKeywords db1 uid).contains kw then (db1, false)
  else
    ({ db1 with
        users := db1.users.map (fun p =>
          if p.1 == uid then (p.1, ⟨p.2.subscribed, p.2.keywords ++ [kw]⟩) else p) },
      true)

/-- The `/addp` handler `cmd_addp` of `bot_webhook.py` lines 160-166. -/
def cmd_addp (db : Db) (uid : Nat) (msgText : Str) : Db × Option Bool :=
  let args := stripStr (afterFirstSpace msgText)
  if args.isEmpty then (db, none)
  else
    let r := add_keyword db uid args
    (r.1, some r.2)

/-- The per-chat test of the `cmd_sairgc` lookup, `bot_webhook.py` line
211: `str(cid)==arg or title.lower()==arg.lower() or
("@"+user).lower()==arg.lower()`. -/
def sairgcMatch (arg : Str) (info : ChatRec) : Bool :=
  intStr info.id == arg || info.title.map lowerChar == arg.map lowerChar ||
    ('@' :: info.username).map lowerChar == arg.map lowerChar

/-- The `cmd_sairgc` lookup loop of `bot_webhook.py` lines 208-212
(`found = cid; break`). -/
def sairgcFind (arg : Str) : List ChatRec → Option Int
  | [] => none
  | info :: rest => if sairgcMatch arg info then some info.id else sairgcFind arg rest

/-- One subscriber's slice of `on_message` in `bot_webhook.py` lines
247-260: the loop breaks at the first matching keyword, and the
`if matched:` guard then tests the matched keyword *string* for Python
truthiness — an empty-string keyword, though it matches, triggers no
delivery.  Otherwise the forward is attempted only if the header send
did not raise; exceptions are logged and nothing else happens. -/
def processUser (tr : Transport) (t : Str) (uid : Nat) (kws : List Str) : List Event :=
  match firstMatch t kws with
  | none => []
  | some kw =>
    if kw.isEmpty then []
    else if tr.headerOk uid then [.header uid kw, .fwd uid] else [.header uid kw]

/-- `on_message` of `bot_webhook.py` lines 234-260: the subscriber list
is `get_subscribed_users()` (rows with `subscribed=1`); the store is
never written. -/
def on_message (tr : Transport) (db : Db) (chat : ChatRec) (msg : Msg) :
    List Event × Db :=
  if !watchedHas db chat.id then ([], db)
  else if (matchText msg).isEmpty then ([], db)
  else
    (concatMap (fun p => processUser tr (matchText msg) p.1 p.2.keywords)
      (db.users.filter (fun p => p.2.subscribed)), db)

end BotWebhook

/-- Modelled from the spec: the ordered resolution strategy of design
note section 9 for the leave-chat identifier — exact id match first, then
exact handle match, then case-insensitive title substring match, the
highest-priority heuristic winning across the whole store. -/
def resolveByPriority (watched : List ChatRec) (arg : Str) : Option ChatRec :=
  match watched.find? (fun i => arg == intStr i.id) with
  | some c => some c
  | none =>
    match watched.find? (fun i => arg == i.username) with
    | some c => some c
    | none => watched.find? (fun i => substrB (arg.map lowerChar) (i.title.map lowerChar))

/-- The keyword-list uniqueness invariant of spec section 3. -/
def KwNodup (db : Db) : Prop := ∀ p ∈ db.users, p.2.keywords.Nodup

/-- The events addressed to a given recipient. -/
def eventsFor (uid : Nat) (evs : List Event) : List Event :=
  evs.filter (fun e => evUid e == uid)

/-- The header events (delivery attempts) addressed to a given recipient. -/
def headersFor (uid : Nat) (evs : List Event) : List Event :=
  evs.filter (fun e => match e with | .header u _ => u == uid | _ => false)

/-- The recipients of all delivery attempts in a trace, in order. -/
def headerUids (evs : List Event) : List Nat :=
  evs.filterMap (fun e => match e with | .header u _ => some u | _ => none)

/-- Concrete fixture: a subscriber with one keyword "a". -/
def infoSub : UserInfo := ⟨true, [['a']]⟩

/-- Concrete fixture: a watched chat with id 1. -/
def chat1 : ChatRec := ⟨1, ['c'], []⟩

/-- Concrete fixture: a chat with id 99, not watched in `db1`. -/
def chatX : ChatRec := ⟨99, ['x'], []⟩

/-- Concrete fixture: one subscriber (id 7), one watched chat. -/
def db1 : Db := ⟨[(7, infoSub)], [chat1]⟩

/-- Concrete fixture: the empty store. -/
def db0 : Db := ⟨[], []⟩

/-- Concrete fixture: a message whose text is "a". -/
def msgA : Msg := ⟨['a'], []⟩

/-- Concrete fixture: a transport where every call succeeds. -/
def trOk : Transport := ⟨fun _ => true, fun _ => true, fun _ => true⟩

/-- Concrete fixture: the header send raises for every recipient but the
`send_chat_action` probe succeeds. -/
def trHdrFail : Transport := ⟨fun _ => false, fun _ => true, fun _ => true⟩

/-- Concrete fixture: the combining acute accent U+0301, a character that
is not whitespace but normalizes away entirely. -/
def markOnly : Str := [Char.ofNat 769]

/-- Concrete fixture: the command text `/addp` followed by a space and
U+0301. -/
def addpCmd : Str := "/addp ".toList ++ [Char.ofNat 769]

/-- Concrete fixture: a subscriber holding the empty-string keyword
(which matches every text but is Python-falsy). -/
def infoEmptyKw : UserInfo := ⟨true, [[]]⟩

/-- Concrete fixture: subscriber 7 holds the empty-string keyword, one
watched chat. -/
def dbE : Db := ⟨[(7, infoEmptyKw)], [chat1]⟩

/-- Concrete fixture: watched chat whose title contains "20". -/
def chatT1 : ChatRec := ⟨10, "z20z".toList, "u".toList⟩

/-- Concrete fixture: watched chat whose id is 20. -/
def chatT2 : ChatRec := ⟨20, "bee".toList, "v".toList⟩

end TgOfertas

namespace TgOfertas

lemma lowerChar_eq_add (c : Char)
    (h : (65 ≤ c.toNat ∧ c.toNat ≤ 90) ∨ (192 ≤ c.toNat ∧ c.toNat ≤ 222 ∧ c.toNat ≠ 215)) :
    lowerChar c = Char.ofNat (c.toNat + 32) := by
  unfold lowerChar; rw [if_pos h]

lemma lowerChar_eq_self (c : Char)
    (h : ¬((65 ≤ c.toNat ∧ c.toNat ≤ 90) ∨ (192 ≤ c.toNat ∧ c.toNat ≤ 222 ∧ c.toNat ≠ 215))) :
    lowerChar c = c := by
  unfold lowerChar; rw [if_neg h]

lemma nfdChar_of_none {c : Char} (h : nfdTable.find? (fun p => p.1 == c) = none) :
    nfdChar c = [c] := by
  unfold nfdChar; rw [h]

lemma nfdChar_of_some {c : Char} {p : Char × List Char}
    (h : nfdTable.find? (fun p => p.1 == c) = some p) :
    nfdChar c = p.2 := by
  unfold nfdChar; rw [h]

lemma nfd_lower_ok (c : Char) :
    (nfdChar (lowerChar c)).all (fun d => combining d || normCharOk d) = true := by
  by_cases h : (65 ≤ c.toNat ∧ c.toNat ≤ 90) ∨ (192 ≤ c.toNat ∧ c.toNat ≤ 222 ∧ c.toNat ≠ 215)
  · rw [lowerChar_eq_add c h]
    obtain ⟨n, hn⟩ : ∃ n, c.toNat = n := ⟨_, rfl⟩
    rw [hn] at h ⊢
    rcases h with ⟨h1, h2⟩ | ⟨h1, h2, h3⟩
    · interval_cases n <;> decide
    · interval_cases n <;> decide
  · rw [lowerChar_eq_self c h]
    cases hf : nfdTable.find? (fun p => p.1 == c) with
    | none =>
      rw [nfdChar_of_none hf]
      by_cases hcomb : combining c = true
      · simp [hcomb]
      · simp only [List.all_cons, List.all_nil, Bool.and_true]
        have h2 : nfdChar c = [c] := nfdChar_of_none hf
        simp [normCharOk, lowerChar_eq_self c h, h2, hcomb]
    | some p =>
      have hmem := List.mem_of_find?_eq_some hf
      rw [nfdChar_of_some hf]
      fin_cases hmem <;> decide

lemma mem_concatMap {α β : Type} (f : α → List β) (l : List α) (b : β) :
    b ∈ concatMap f l ↔ ∃ a ∈ l, b ∈ f a := by
  induction l with
  | nil => simp [concatMap]
  | cons a t ih => simp [concatMap, ih]

lemma norm_mem {s : Str} {c : Char} (h : c ∈ normalize s) :
    lowerChar c = c ∧ nfdChar c = [c] ∧ combining c = false := by
  simp only [normalize] at h
  obtain ⟨hm, hcomb⟩ := List.mem_filter.mp h
  rw [mem_concatMap] at hm
  obtain ⟨a, ha, hca⟩ := hm
  rw [List.mem_map] at ha
  obtain ⟨b, _, rfl⟩ := ha
  have hall := List.all_eq_true.mp (nfd_lower_ok b) c hca
  simp only [Bool.not_eq_true'] at hcomb
  rw [hcomb] at hall
  simp only [Bool.false_or, normCharOk, Bool.and_eq_true, beq_iff_eq] at hall
  exact ⟨hall.1.1, hall.1.2, hcomb⟩

lemma normalize_eq_self {l : Str}
    (h : ∀ c ∈ l, lowerChar c = c ∧ nfdChar c = [c] ∧ combining c = false) :
    normalize l = l := by
  induction l with
  | nil => rfl
  | cons c t ih =>
    obtain ⟨h1, h2, h3⟩ := h c (List.mem_cons_self c t)
    have ht := ih (fun d hd => h d (List.mem_cons_of_mem c hd))
    simp only [normalize, List.map_cons, concatMap, h1, h2] at ht ⊢
    simp [List.filter_append, List.filter, h3, ht]

/-- C8: normalization is idempotent: `normalize (normalize x) = normalize x`
for every string `x`, where `normalize` lowercases, NFD-decomposes and
discards combining marks. -/
theorem c8_normalize_idempotent (s : Str) : normalize (normalize s) = normalize s :=
  normalize_eq_self (fun _ hc => norm_mem hc)

lemma isPrefOf_iff (n : Str) : ∀ h : Str, isPrefOf n h = true ↔ ∃ t, h = n ++ t := by
  induction n with
  | nil => intro h; simp [isPrefOf]
  | cons a as ih =>
    intro h
    cases h with
    | nil => simp [isPrefOf]
    | cons b bs =>
      rw [show isPrefOf (a :: as) (b :: bs) = (a == b && isPrefOf as bs) from rfl]
      simp only [Bool.and_eq_true, beq_iff_eq, ih bs]
      constructor
      · rintro ⟨rfl, t, rfl⟩; exact ⟨t, rfl⟩
      · rintro ⟨t, ht⟩
        injection ht with hab ht
        exact ⟨hab.symm, t, ht⟩

lemma substrB_iff (n : Str) : ∀ h : Str, substrB n h = true ↔ SubstrOf n h := by
  intro h
  induction h with
  | nil =>
    simp only [substrB, SubstrOf, List.isEmpty_iff]
    constructor
    · rintro rfl; exact ⟨[], [], rfl⟩
    · rintro ⟨pre, post, he⟩
      rcases List.append_eq_nil.mp he.symm with ⟨h1, h2⟩
      rcases List.append_eq_nil.mp h1 with ⟨_, h3⟩
      exact h3
  | cons c t ih =>
    rw [show substrB n (c :: t) = (isPrefOf n (c :: t) || substrB n t) from rfl]
    simp only [Bool.or_eq_true, isPrefOf_iff, ih, SubstrOf]
    constructor
    · rintro (⟨t', ht'⟩ | ⟨pre, post, hp⟩)
      · exact ⟨[], t', by simp [ht']⟩
      · exact ⟨c :: pre, post, by simp [hp]⟩
    · rintro ⟨pre, post, he⟩
      cases pre with
      | nil => exact Or.inl ⟨post, by simpa using he⟩
      | cons x xs =>
        rw [List.cons_append, List.cons_append] at he
        injection he with h4 h5
        exact Or.inr ⟨xs, post, h5⟩

/-- C2: `text_contains_all_tokens text kw` returns true iff every
whitespace token of the normalized phrase (empty tokens discarded) is a
contiguous substring of `normalize text`; a phrase with an empty
normalized token set matches every message text. -/
theorem c2_matcher_refines_spec (text kw : Str) :
    (text_contains_all_tokens text kw = true ↔ matchesSpec text kw)
    ∧ (phraseTokens kw = [] → text_contains_all_tokens text kw = true) := by
  constructor
  · simp only [text_contains_all_tokens, List.all_eq_true, matchesSpec]
    constructor
    · intro h tok htok; exact (substrB_iff tok (normalize text)).mp (h tok htok)
    · intro h tok htok; exact (substrB_iff tok (normalize text)).mpr (h tok htok)
  · intro h; simp [text_contains_all_tokens, h]

/-- Witness for C2 at the concrete text "Oferta" and the blank keyword
phrase (whose token set is empty). -/
theorem c2_matcher_refines_spec_witness :
    (text_contains_all_tokens "Oferta".toList "".toList = true ↔
      matchesSpec "Oferta".toList "".toList)
    ∧ (phraseTokens "".toList = [] →
      text_contains_all_tokens "Oferta".toList "".toList = true) :=
  c2_matcher_refines_spec "Oferta".toList "".toList

lemma concatMap_congr {α β : Type} (f g : α → List β) (l : List α)
    (h : ∀ a ∈ l, f a = g a) : concatMap f l = concatMap g l := by
  induction l with
  | nil => rfl
  | cons a t ih =>
    simp only [concatMap, h a (List.mem_cons_self a t)]
    rw [ih (fun b hb => h b (List.mem_cons_of_mem a hb))]

lemma filter_concatMap {α β : Type} (P : β → Bool) (f : α → List β) (l : List α) :
    (concatMap f l).filter P = concatMap (fun a => (f a).filter P) l := by
  induction l with
  | nil => rfl
  | cons a t ih => simp [concatMap, List.filter_append, ih]

lemma filterMap_concatMap {α β γ : Type} (g : β → Option γ) (f : α → List β) (l : List α) :
    (concatMap f l).filterMap g = concatMap (fun a => (f a).filterMap g) l := by
  induction l with
  | nil => rfl
  | cons a t ih => simp [concatMap, List.filterMap_append, ih]

lemma filter_concatMap_of_ne {α : Type} (P : Event → Bool) (f : Nat × α → List Event)
    (uid : Nat) (hP : ∀ e, P e = true → evUid e = uid)
    (hf : ∀ p e, e ∈ f p → evUid e = p.1) :
    ∀ us : List (Nat × α), uid ∉ us.map Prod.fst → (concatMap f us).filter P = [] := by
  intro us
  induction us with
  | nil => intro _; rfl
  | cons q rest ih =>
    intro h
    simp only [List.map_cons, List.mem_cons, not_or] at h
    obtain ⟨hq, hrest⟩ := h
    have h1 : (f q).filter P = [] := by
      apply List.filter_eq_nil_iff.mpr
      intro e he hPe
      exact hq (((hf q e he).symm.trans (hP e hPe)).symm)
    have h2 : (concatMap f rest).filter P = [] := ih hrest
    simp [concatMap, List.filter_append, h1, h2]

lemma filter_concatMap_single {α : Type} (P : Event → Bool) (f : Nat × α → List Event)
    (uid : Nat) (x : α) (hP : ∀ e, P e = true → evUid e = uid)
    (hf : ∀ p e, e ∈ f p → evUid e = p.1) :
    ∀ us : List (Nat × α), (us.map Prod.fst).Nodup → (uid, x) ∈ us →
      (concatMap f us).filter P = (f (uid, x)).filter P := by
  intro us
  induction us with
  | nil => intro _ hmem; simp at hmem
  | cons q rest ih =>
    intro hnd hmem
    simp only [List.map_cons, List.nodup_cons] at hnd
    obtain ⟨hq_not, hnd_rest⟩ := hnd
    rcases List.mem_cons.mp hmem with heq | hmem'
    · have h2 : (concatMap f rest).filter P = [] := by
        apply filter_concatMap_of_ne P f uid hP hf rest
        rw [← heq] at hq_not
        exact hq_not
      simp [concatMap, List.filter_append, h2, ← heq]
    · have hq : q.1 ≠ uid := by
        intro he
        apply hq_not
        rw [he]
        exact List.mem_map_of_mem Prod.fst hmem'
      have h1 : (f q).filter P = [] := by
        apply List.filter_eq_nil_iff.mpr
        intro e he hPe
        exact hq ((hf q e he).symm.trans (hP e hPe))
      simp [concatMap, List.filter_append, h1, ih hnd_rest hmem']

lemma pu_not_sub (tr : Transport) (t : Str) (uid : Nat) (info : UserInfo)
    (h : info.subscribed = false) : BotPoll.processUser tr t uid info = ([], false) := by
  simp [BotPoll.processUser, h]

lemma pu_none (tr : Transport) (t : Str) (uid : Nat) (info : UserInfo)
    (hs : info.subscribed = true) (h : firstMatch t info.keywords = none) :
    BotPoll.processUser tr t uid info = ([], true) := by
  simp [BotPoll.processUser, hs, h]

lemma pu_some (tr : Transport) (t : Str) (uid : Nat) (info : UserInfo) (kw : Str)
    (hs : info.subscribed = true) (h : firstMatch t info.keywords = some kw) :
    BotPoll.processUser tr t uid info =
      (if tr.headerOk uid then
        if tr.forwardOk uid then ([Event.header uid kw, Event.fwd uid], info.subscribed)
        else if tr.probeOk uid then
          ([Event.header uid kw, Event.fwd uid, Event.probe uid], info.subscribed)
        else ([Event.header uid kw, Event.fwd uid, Event.probe uid], false)
      else if tr.probeOk uid then ([Event.header uid kw, Event.probe uid], info.subscribed)
      else ([Event.header uid kw, Event.probe uid], false)) := by
  have hk : info.keywords.isEmpty = false := by
    cases hk : info.keywords with
    | nil => rw [hk] at h; simp [firstMatch] at h
    | cons a l => rfl
  simp [BotPoll.processUser, hs, hk, h]

lemma pu_snd (tr : Transport) (t : Str) (uid : Nat) (info : UserInfo) :
    (BotPoll.processUser tr t uid info).2 =
      if info.subscribed = true ∧ (firstMatch t info.keywords).isSome = true
          ∧ (tr.headerOk uid = false ∨ tr.forwardOk uid = false) ∧ tr.probeOk uid = false
      then false else info.subscribed := by
  cases hs : info.subscribed with
  | false => simp [pu_not_sub tr t uid info hs, hs]
  | true =>
    cases hm : firstMatch t info.keywords with
    | none => simp [pu_none tr t uid info hs hm, hm, hs]
    | some kw =>
      rw [pu_some tr t uid info kw hs hm]
      cases hh : tr.headerOk uid <;> cases hfo : tr.forwardOk uid <;>
        cases hp : tr.probeOk uid <;> simp [hh, hfo, hp, hs, hm]

lemma pu_evUid (tr : Transport) (t : Str) (uid : Nat) (info : UserInfo) :
    ∀ e ∈ (BotPoll.processUser tr t uid info).1, evUid e = uid := by
  cases hs : info.subscribed with
  | false => simp [pu_not_sub tr t uid info hs]
  | true =>
    cases hm : firstMatch t info.keywords with
    | none => simp [pu_none tr t uid info hs hm]
    | some kw =>
      rw [pu_some tr t uid info kw hs hm]
      cases hh : tr.headerOk uid <;> cases hfo : tr.forwardOk uid <;>
        cases hp : tr.probeOk uid <;> simp [evUid]

lemma puW_evUid (tr : Transport) (t : Str) (uid : Nat) (kws : List Str) :
    ∀ e ∈ BotWebhook.processUser tr t uid kws, evUid e = uid := by
  unfold BotWebhook.processUser
  cases hm : firstMatch t kws with
  | none => simp
  | some kw =>
    by_cases hk : kw.isEmpty = true
    · simp [hk]
    · have hk' : kw.isEmpty = false := by simpa using hk
      cases hh : tr.headerOk uid <;> simp [hk', evUid]

lemma dispatchUsers_fst (tr : Transport) (t : Str) :
    ∀ us, (BotPoll.dispatchUsers tr t us).1 =
      concatMap (fun p => (BotPoll.processUser tr t p.1 p.2).1) us := by
  intro us
  induction us with
  | nil => rfl
  | cons p rest ih => simp [BotPoll.dispatchUsers, concatMap, ih]

lemma dispatchUsers_snd (tr : Transport) (t : Str) :
    ∀ us, (BotPoll.dispatchUsers tr t us).2 =
      us.map (fun p => (p.1, UserInfo.mk (BotPoll.processUser tr t p.1 p.2).2 p.2.keywords)) := by
  intro us
  induction us with
  | nil => rfl
  | cons p rest ih => simp [BotPoll.dispatchUsers, ih]

lemma on_message_fst (tr : Transport) (db : Db) (chat : ChatRec) (msg : Msg)
    (hw : watchedHas db chat.id = true) (ht : (matchText msg).isEmpty = false) :
    (BotPoll.on_message tr db chat msg).1 =
      concatMap (fun p => (BotPoll.processUser tr (matchText msg) p.1 p.2).1) db.users := by
  simp [BotPoll.on_message, hw, ht, dispatchUsers_fst]

lemma on_message_snd (tr : Transport) (db : Db) (chat : ChatRec) (msg : Msg)
    (hw : watchedHas db chat.id = true) (ht : (matchText msg).isEmpty = false) :
    (BotPoll.on_message tr db chat msg).2 =
      { db with
          users := db.users.map (fun p =>
            (p.1, UserInfo.mk (BotPoll.processUser tr (matchText msg) p.1 p.2).2
              p.2.keywords)) } := by
  simp [BotPoll.on_message, hw, ht, dispatchUsers_snd]

lemma on_messageW_fst (tr : Transport) (db : Db) (chat : ChatRec) (msg : Msg)
    (hw : watchedHas db chat.id = true) (ht : (matchText msg).isEmpty = false) :
    (BotWebhook.on_message tr db chat msg).1 =
      concatMap (fun p => BotWebhook.processUser tr (matchText msg) p.1 p.2.keywords)
        (db.users.filter (fun p => p.2.subscribed)) := by
  simp [BotWebhook.on_message, hw, ht]

lemma on_messageW_snd (tr : Transport) (db : Db) (chat : ChatRec) (msg : Msg) :
    (BotWebhook.on_message tr db chat msg).2 = db := by
  unfold BotWebhook.on_message
  split
  · rfl
  · split
    · rfl
    · rfl

/-- C4: a message from an unwatched chat is a complete no-op in both
variants: no events, store returned unchanged. -/
theorem c4_unwatched_is_noop (tr : Transport) (db : Db) (chat : ChatRec) (msg : Msg)
    (h : watchedHas db chat.id = false) :
    BotPoll.on_message tr db chat msg = ([], db)
    ∧ BotWebhook.on_message tr db chat msg = ([], db) := by
  constructor
  · simp [BotPoll.on_message, h]
  · simp [BotWebhook.on_message, h]

/-- Witness for C4: chat 99 is not watched in `db1`, whose only
subscriber's keyword matches the message text. -/
theorem c4_unwatched_is_noop_witness :
    watchedHas db1 chatX.id = false
    ∧ (BotPoll.on_message trOk db1 chatX msgA = ([], db1)
        ∧ BotWebhook.on_message trOk db1 chatX msgA = ([], db1)) :=
  ⟨by decide, c4_unwatched_is_noop trOk db1 chatX msgA (by decide)⟩

lemma headerUids_concatMap {α : Type} (f : α → List Event) (l : List α) :
    headerUids (concatMap f l) = concatMap (fun a => headerUids (f a)) l :=
  filterMap_concatMap _ f l

lemma headerUids_pu (tr : Transport) (t : Str) (uid : Nat) (info : UserInfo) :
    headerUids (BotPoll.processUser tr t uid info).1 =
      if info.subscribed = true ∧ (firstMatch t info.keywords).isSome = true
      then [uid] else [] := by
  cases hs : info.subscribed with
  | false => simp [pu_not_sub tr t uid info hs, hs, headerUids]
  | true =>
    cases hm : firstMatch t info.keywords with
    | none => simp [pu_none tr t uid info hs hm, hm, hs, headerUids]
    | some kw =>
      rw [pu_some tr t uid info kw hs hm]
      cases hh : tr.headerOk uid <;> cases hfo : tr.forwardOk uid <;>
        cases hp : tr.probeOk uid <;> simp [hh, hfo, hp, hs, hm, headerUids]

lemma headerUids_puW (tr : Transport) (t : Str) (uid : Nat) (kws : List Str) :
    headerUids (BotWebhook.processUser tr t uid kws) =
      (firstMatch t kws).elim [] (fun kw => if kw.isEmpty then [] else [uid]) := by
  unfold BotWebhook.processUser
  cases hm : firstMatch t kws with
  | none => simp [headerUids]
  | some kw =>
    by_cases hk : kw.isEmpty = true
    · have hk0 : kw = [] := by simpa using hk
      simp [hk0, headerUids]
    · have hk0 : kw ≠ [] := by simpa using hk
      cases hh : tr.headerOk uid <;> simp [hk0, headerUids]

/-- C5: the list of subscribers to whom delivery is attempted for one
message does not depend on the transport outcomes at all: a failure for
one subscriber never prevents the attempts to the remaining subscribers,
in either variant. -/
theorem c5_subscriber_independence (tr tr' : Transport) (db : Db) (chat : ChatRec)
    (msg : Msg) :
    headerUids (BotPoll.on_message tr db chat msg).1 =
      headerUids (BotPoll.on_message tr' db chat msg).1
    ∧ headerUids (BotWebhook.on_message tr db chat msg).1 =
      headerUids (BotWebhook.on_message tr' db chat msg).1 := by
  by_cases hw : watchedHas db chat.id = true
  · by_cases ht : (matchText msg).isEmpty = true
    · constructor <;> simp [BotPoll.on_message, BotWebhook.on_message, hw, ht]
    · have ht' : (matchText msg).isEmpty = false := by simpa using ht
      constructor
      · rw [on_message_fst tr db chat msg hw ht', on_message_fst tr' db chat msg hw ht',
          headerUids_concatMap, headerUids_concatMap]
        exact concatMap_congr _ _ _ (fun p _ => by rw [headerUids_pu, headerUids_pu])
      · rw [on_messageW_fst tr db chat msg hw ht', on_messageW_fst tr' db chat msg hw ht',
          headerUids_concatMap, headerUids_concatMap]
        exact concatMap_congr _ _ _ (fun p _ => by rw [headerUids_puW, headerUids_puW])
  · have hw' : watchedHas db chat.id = false := by simpa using hw
    constructor <;> simp [BotPoll.on_message, BotWebhook.on_message, hw']

lemma find?_first {α : Type} (p : α → Bool) :
    ∀ (l : List α) (a : α), l.find? p = some a →
      ∃ pre post, l = pre ++ a :: post ∧ p a = true ∧ ∀ x ∈ pre, p x = false := by
  intro l
  induction l with
  | nil => intro a h; simp at h
  | cons b t ih =>
    intro a h
    cases hb : p b with
    | true =>
      rw [List.find?_cons_of_pos _ hb] at h
      injection h with h'
      subst h'
      exact ⟨[], t, rfl, hb, by simp⟩
    | false =>
      rw [List.find?_cons_of_neg _ (by simp [hb])] at h
      obtain ⟨pre, post, h1, h2, h3⟩ := ih a h
      refine ⟨b :: pre, post, by rw [h1]; rfl, h2, ?_⟩
      intro x hx
      rcases List.mem_cons.mp hx with rfl | hx'
      · exact hb
      · exact h3 x hx'

lemma find?_first_conv {α : Type} (p : α → Bool) :
    ∀ (pre : List α) (a : α) (post : List α), p a = true → (∀ x ∈ pre, p x = false) →
      (pre ++ a :: post).find? p = some a := by
  intro pre
  induction pre with
  | nil => intro a post ha _; simpa using List.find?_cons_of_pos (p := p) post ha
  | cons b t ih =>
    intro a post ha hpre
    have hb : p b = false := hpre b (by simp)
    rw [List.cons_append, List.find?_cons_of_neg _ (by simp [hb])]
    exact ih a post ha (fun x hx => hpre x (List.mem_cons_of_mem b hx))

lemma entry_unique {α : Type} :
    ∀ us : List (Nat × α), (us.map Prod.fst).Nodup →
      ∀ q r, q ∈ us → r ∈ us → q.1 = r.1 → q = r := by
  intro us
  induction us with
  | nil => intro _ q r hq; simp at hq
  | cons a t ih =>
    intro hnd q r hq hr heq
    simp only [List.map_cons, List.nodup_cons] at hnd
    obtain ⟨hnotin, hndt⟩ := hnd
    rcases List.mem_cons.mp hq with rfl | hq'
    · rcases List.mem_cons.mp hr with rfl | hr'
      · rfl
      · have hmem : r.1 ∈ t.map Prod.fst := List.mem_map_of_mem Prod.fst hr'
        rw [← heq] at hmem
        exact absurd hmem hnotin
    · rcases List.mem_cons.mp hr with rfl | hr'
      · have hmem : q.1 ∈ t.map Prod.fst := List.mem_map_of_mem Prod.fst hq'
        rw [heq] at hmem
        exact absurd hmem hnotin
      · exact ih hndt q r hq' hr' heq

/-- C3 counterexample: subscriber 7 is subscribed and holds the
empty-string keyword, which matches the message text, yet the webhook
variant attempts no delivery — its `if matched:` guard skips the
Python-falsy empty string — while the polling variant does attempt one. -/
theorem c3_webhook_truthiness_counterexample :
    infoEmptyKw.subscribed = true
    ∧ ([] : Str) ∈ infoEmptyKw.keywords
    ∧ text_contains_all_tokens (matchText msgA) ([] : Str) = true
    ∧ watchedHas dbE chat1.id = true
    ∧ (matchText msgA).isEmpty = false
    ∧ (BotWebhook.on_message trOk dbE chat1 msgA).1 = []
    ∧ headersFor 7 (BotPoll.on_message trOk dbE chat1 msgA).1 = [Event.header 7 []] := by
  decide

/-- C3 amended: for a message from a watched chat with non-empty
matchable text, both variants scan each subscriber's keywords in stored
order, stop at the first match, and send at most one notification per
subscriber per message; `bot.py` attempts delivery exactly for the
subscribers with `subscribed = true` and a matching keyword, while
`bot_webhook.py` additionally requires the matched keyword to be a
non-empty string (its `if matched:` truthiness guard): when the first
matching keyword is the empty string, that subscriber gets no events. -/
theorem c3_amended_dispatch_first_match (tr : Transport) (db : Db) (chat : ChatRec)
    (msg : Msg) (uid : Nat) (info : UserInfo)
    (hmem : (uid, info) ∈ db.users) (hnd : (db.users.map Prod.fst).Nodup)
    (hw : watchedHas db chat.id = true) (ht : (matchText msg).isEmpty = false) :
    (∀ kw, info.subscribed = true → firstMatch (matchText msg) info.keywords = some kw →
        headersFor uid (BotPoll.on_message tr db chat msg).1 = [Event.header uid kw]
        ∧ (kw.isEmpty = false →
            headersFor uid (BotWebhook.on_message tr db chat msg).1 = [Event.header uid kw])
        ∧ (kw.isEmpty = true →
            eventsFor uid (BotWebhook.on_message tr db chat msg).1 = []))
    ∧ (info.subscribed = false ∨ firstMatch (matchText msg) info.keywords = none →
        eventsFor uid (BotPoll.on_message tr db chat msg).1 = []
        ∧ eventsFor uid (BotWebhook.on_message tr db chat msg).1 = [])
    ∧ ((firstMatch (matchText msg) info.keywords).isSome = true ↔
        ∃ kw, kw ∈ info.keywords ∧ text_contains_all_tokens (matchText msg) kw = true)
    ∧ (∀ kw, firstMatch (matchText msg) info.keywords = some kw →
        ∃ pre post, info.keywords = pre ++ kw :: post
          ∧ text_contains_all_tokens (matchText msg) kw = true
          ∧ ∀ k ∈ pre, text_contains_all_tokens (matchText msg) k = false) := by
  have hPheader : ∀ e,
      (fun e => match e with | Event.header u _ => u == uid | _ => false) e = true →
        evUid e = uid := by
    intro e he
    cases e with
    | header u k => simpa [evUid] using he
    | fwd u => simp at he
    | probe u => simp at he
  have hPev : ∀ e, (fun e => evUid e == uid) e = true → evUid e = uid := by
    intro e he
    simpa using he
  have hfpoll : ∀ (p : Nat × UserInfo) e,
      e ∈ (BotPoll.processUser tr (matchText msg) p.1 p.2).1 → evUid e = p.1 :=
    fun p e he => pu_evUid tr (matchText msg) p.1 p.2 e he
  have hfW : ∀ (p : Nat × UserInfo) e,
      e ∈ BotWebhook.processUser tr (matchText msg) p.1 p.2.keywords → evUid e = p.1 :=
    fun p e he => puW_evUid tr (matchText msg) p.1 p.2.keywords e he
  have hndF : ((db.users.filter (fun p => p.2.subscribed)).map Prod.fst).Nodup :=
    hnd.sublist ((List.filter_sublist db.users).map Prod.fst)
  refine ⟨?_, ?_, ?_, ?_⟩
  · intro kw hs hm
    have hmemF : (uid, info) ∈ db.users.filter (fun p => p.2.subscribed) :=
      List.mem_filter.mpr ⟨hmem, by simpa using hs⟩
    refine ⟨?_, ?_, ?_⟩
    · unfold headersFor
      rw [on_message_fst tr db chat msg hw ht,
        filter_concatMap_single _ _ uid info hPheader hfpoll db.users hnd hmem,
        pu_some tr (matchText msg) uid info kw hs hm]
      cases hh : tr.headerOk uid <;> cases hfo : tr.forwardOk uid <;>
        cases hp : tr.probeOk uid <;> simp [List.filter]
    · intro hkE
      unfold headersFor
      rw [on_messageW_fst tr db chat msg hw ht,
        filter_concatMap_single _ _ uid info hPheader hfW _ hndF hmemF]
      unfold BotWebhook.processUser
      rw [hm]
      cases hh : tr.headerOk uid <;> simp [hkE, List.filter]
    · intro hkE
      unfold eventsFor
      rw [on_messageW_fst tr db chat msg hw ht,
        filter_concatMap_single _ _ uid info hPev hfW _ hndF hmemF]
      unfold BotWebhook.processUser
      rw [hm]
      simp [hkE]
  · intro hcase
    constructor
    · unfold eventsFor
      rw [on_message_fst tr db chat msg hw ht,
        filter_concatMap_single _ _ uid info hPev hfpoll db.users hnd hmem]
      cases hsb : info.subscribed with
      | false => rw [pu_not_sub tr (matchText msg) uid info hsb]; rfl
      | true =>
        have hm : firstMatch (matchText msg) info.keywords = none := by
          rcases hcase with hs | hm
          · rw [hsb] at hs; exact absurd hs (by simp)
          · exact hm
        rw [pu_none tr (matchText msg) uid info hsb hm]
        rfl
    · unfold eventsFor
      rw [on_messageW_fst tr db chat msg hw ht]
      cases hsb : info.subscribed with
      | true =>
        have hm : firstMatch (matchText msg) info.keywords = none := by
          rcases hcase with hs | hm
          · rw [hsb] at hs; exact absurd hs (by simp)
          · exact hm
        have hmemF : (uid, info) ∈ db.users.filter (fun p => p.2.subscribed) :=
          List.mem_filter.mpr ⟨hmem, by simpa using hsb⟩
        rw [filter_concatMap_single _ _ uid info hPev hfW _ hndF hmemF]
        unfold BotWebhook.processUser
        rw [hm]
        rfl
      | false =>
        apply filter_concatMap_of_ne _ _ uid hPev hfW
        intro hmemK
        rw [List.mem_map] at hmemK
        obtain ⟨q, hqF, hq1⟩ := hmemK
        have hqU := (List.mem_filter.mp hqF).1
        have hqS := (List.mem_filter.mp hqF).2
        have hq : q = (uid, info) := entry_unique db.users hnd q (uid, info) hqU hmem hq1
        rw [hq] at hqS
        rw [hsb] at hqS
        exact absurd hqS (by simp)
  · unfold firstMatch
    constructor
    · intro h
      obtain ⟨kw, hkw⟩ := Option.isSome_iff_exists.mp h
      have hmemk := List.mem_of_find?_eq_some hkw
      have hpk := List.find?_some hkw
      exact ⟨kw, hmemk, hpk⟩
    · rintro ⟨kw, hmemk, hpk⟩
      cases hfind : info.keywords.find? (fun kw => text_contains_all_tokens (matchText msg) kw) with
      | some kw2 => rfl
      | none =>
        have := List.find?_eq_none.mp hfind kw hmemk
        rw [hpk] at this
        exact absurd rfl this
  · intro kw hm
    exact find?_first _ info.keywords kw hm

/-- Witness for the amended C3 at `db1` (subscriber 7 with the non-empty
keyword "a"), watched chat 1 and message "a". -/
theorem c3_amended_dispatch_first_match_witness :
    ((7, infoSub) ∈ db1.users ∧ (db1.users.map Prod.fst).Nodup
      ∧ watchedHas db1 chat1.id = true ∧ (matchText msgA).isEmpty = false)
    ∧ ((∀ kw, infoSub.subscribed = true →
          firstMatch (matchText msgA) infoSub.keywords = some kw →
          headersFor 7 (BotPoll.on_message trOk db1 chat1 msgA).1 = [Event.header 7 kw]
          ∧ (kw.isEmpty = false →
              headersFor 7 (BotWebhook.on_message trOk db1 chat1 msgA).1 =
                [Event.header 7 kw])
          ∧ (kw.isEmpty = true →
              eventsFor 7 (BotWebhook.on_message trOk db1 chat1 msgA).1 = []))
      ∧ (infoSub.subscribed = false ∨ firstMatch (matchText msgA) infoSub.keywords = none →
          eventsFor 7 (BotPoll.on_message trOk db1 chat1 msgA).1 = []
          ∧ eventsFor 7 (BotWebhook.on_message trOk db1 chat1 msgA).1 = [])
      ∧ ((firstMatch (matchText msgA) infoSub.keywords).isSome = true ↔
          ∃ kw, kw ∈ infoSub.keywords
            ∧ text_contains_all_tokens (matchText msgA) kw = true)
      ∧ (∀ kw, firstMatch (matchText msgA) infoSub.keywords = some kw →
          ∃ pre post, infoSub.keywords = pre ++ kw :: post
            ∧ text_contains_all_tokens (matchText msgA) kw = true
            ∧ ∀ k ∈ pre, text_contains_all_tokens (matchText msgA) k = false)) :=
  ⟨⟨by decide, by decide, by decide, by decide⟩,
    c3_amended_dispatch_first_match trOk db1 chat1 msgA 7 infoSub
      (by decide) (by decide) (by decide) (by decide)⟩

lemma headerPred_evUid (uid : Nat) :
    ∀ e, (fun e => match e with | Event.header u _ => u == uid | _ => false) e = true →
      evUid e = uid := by
  intro e he
  cases e with
  | header u k => simpa [evUid] using he
  | fwd u => simp at he
  | probe u => simp at he

lemma evPred_evUid (uid : Nat) :
    ∀ e, (fun e => evUid e == uid) e = true → evUid e = uid := by
  intro e he
  simpa using he

lemma pu_events_target (tr : Transport) (t : Str) :
    ∀ (p : Nat × UserInfo) e, e ∈ (BotPoll.processUser tr t p.1 p.2).1 → evUid e = p.1 :=
  fun p e he => pu_evUid tr t p.1 p.2 e he

lemma headersFor_pu (tr : Transport) (t : Str) (uid : Nat) (info : UserInfo) :
    headersFor uid (BotPoll.processUser tr t uid info).1 =
      (firstMatch t info.keywords).elim []
        (fun kw => if info.subscribed then [Event.header uid kw] else []) := by
  cases hs : info.subscribed with
  | false =>
    cases hm : firstMatch t info.keywords <;>
      simp [pu_not_sub tr t uid info hs, headersFor, hs]
  | true =>
    cases hm : firstMatch t info.keywords with
    | none => simp [pu_none tr t uid info hs hm, headersFor, hs]
    | some kw =>
      rw [pu_some tr t uid info kw hs hm]
      cases hh : tr.headerOk uid <;> cases hfo : tr.forwardOk uid <;>
        cases hp : tr.probeOk uid <;> simp [headersFor, List.filter, hs]

/-- C1 counterexample: with `trHdrFail` the header send raises for
subscriber 7 (left conjunct), so delivery of the matched message fails,
yet the store is unchanged — the probe succeeded, so the `subscribed`
flag stays `true` — and a second matching message produces another
delivery attempt to that subscriber; the webhook variant also leaves the
store unchanged. -/
theorem c1_failure_flip_counterexample :
    trHdrFail.headerOk 7 = false
    ∧ headersFor 7 (BotPoll.on_message trHdrFail db1 chat1 msgA).1 = [Event.header 7 ['a']]
    ∧ (BotPoll.on_message trHdrFail db1 chat1 msgA).2 = db1
    ∧ userSubscribed (BotPoll.on_message trHdrFail db1 chat1 msgA).2 7 = true
    ∧ headersFor 7
        (BotPoll.on_message trHdrFail (BotPoll.on_message trHdrFail db1 chat1 msgA).2
          chat1 msgA).1 = [Event.header 7 ['a']]
    ∧ (BotWebhook.on_message trHdrFail db1 chat1 msgA).2 = db1 := by decide

/-- C1 amended: on delivery failure the engine does not retry (at most
one header per subscriber per message); in `bot.py` the `subscribed`
flag is flipped to `false` exactly when delivery to a subscribed, matched
user failed and the follow-up `send_chat_action` probe also raised; an
unsubscribed user gets no delivery attempt; in `bot_webhook.py` the store
is never modified by dispatch. -/
theorem c1_amended_failure_policy (tr : Transport) (db : Db) (chat : ChatRec) (msg : Msg)
    (uid : Nat) (info : UserInfo)
    (hmem : (uid, info) ∈ db.users) (hnd : (db.users.map Prod.fst).Nodup) :
    ((headersFor uid (BotPoll.on_message tr db chat msg).1).length ≤ 1)
    ∧ ((BotPoll.processUser tr (matchText msg) uid info).2 = false ↔
        (info.subscribed = false
          ∨ ((firstMatch (matchText msg) info.keywords).isSome = true
              ∧ (tr.headerOk uid = false ∨ tr.forwardOk uid = false)
              ∧ tr.probeOk uid = false)))
    ∧ (info.subscribed = false → eventsFor uid (BotPoll.on_message tr db chat msg).1 = [])
    ∧ ((BotWebhook.on_message tr db chat msg).2 = db) := by
  refine ⟨?_, ?_, ?_, on_messageW_snd tr db chat msg⟩
  · by_cases hw : watchedHas db chat.id = true
    · by_cases ht : (matchText msg).isEmpty = true
      · simp [BotPoll.on_message, hw, ht, headersFor]
      · have ht' : (matchText msg).isEmpty = false := by simpa using ht
        unfold headersFor
        rw [on_message_fst tr db chat msg hw ht',
          filter_concatMap_single _ _ uid info (headerPred_evUid uid)
            (pu_events_target tr (matchText msg)) db.users hnd hmem]
        have := headersFor_pu tr (matchText msg) uid info
        unfold headersFor at this
        rw [this]
        cases hm : firstMatch (matchText msg) info.keywords with
        | none => simp
        | some kw => cases hs : info.subscribed <;> simp [hs]
    · have hw' : watchedHas db chat.id = false := by simpa using hw
      simp [BotPoll.on_message, hw', headersFor]
  · rw [pu_snd]
    by_cases hcond : info.subscribed = true
        ∧ (firstMatch (matchText msg) info.keywords).isSome = true
        ∧ (tr.headerOk uid = false ∨ tr.forwardOk uid = false) ∧ tr.probeOk uid = false
    · rw [if_pos hcond]
      constructor
      · intro _; exact Or.inr ⟨hcond.2.1, hcond.2.2.1, hcond.2.2.2⟩
      · intro _; rfl
    · rw [if_neg hcond]
      constructor
      · intro h; exact Or.inl h
      · rintro (h | ⟨h1, h2, h3⟩)
        · exact h
        · cases hsb : info.subscribed with
          | false => rfl
          | true => exact absurd ⟨hsb, h1, h2, h3⟩ hcond
  · intro hs
    by_cases hw : watchedHas db chat.id = true
    · by_cases ht : (matchText msg).isEmpty = true
      · simp [BotPoll.on_message, hw, ht, eventsFor]
      · have ht' : (matchText msg).isEmpty = false := by simpa using ht
        unfold eventsFor
        rw [on_message_fst tr db chat msg hw ht',
          filter_concatMap_single _ _ uid info (evPred_evUid uid)
            (pu_events_target tr (matchText msg)) db.users hnd hmem,
          pu_not_sub tr (matchText msg) uid info hs]
        rfl
    · have hw' : watchedHas db chat.id = false := by simpa using hw
      simp [BotPoll.on_message, hw', eventsFor]

/-- Witness for the amended C1 at the failing-header, succeeding-probe
transport and store `db1`. -/
theorem c1_amended_failure_policy_witness :
    ((7, infoSub) ∈ db1.users ∧ (db1.users.map Prod.fst).Nodup)
    ∧ (((headersFor 7 (BotPoll.on_message trHdrFail db1 chat1 msgA).1).length ≤ 1)
      ∧ ((BotPoll.processUser trHdrFail (matchText msgA) 7 infoSub).2 = false ↔
          (infoSub.subscribed = false
            ∨ ((firstMatch (matchText msgA) infoSub.keywords).isSome = true
                ∧ (trHdrFail.headerOk 7 = false ∨ trHdrFail.forwardOk 7 = false)
                ∧ trHdrFail.probeOk 7 = false)))
      ∧ (infoSub.subscribed = false →
          eventsFor 7 (BotPoll.on_message trHdrFail db1 chat1 msgA).1 = [])
      ∧ ((BotWebhook.on_message trHdrFail db1 chat1 msgA).2 = db1)) :=
  ⟨⟨by decide, by decide⟩,
    c1_amended_failure_policy trHdrFail db1 chat1 msgA 7 infoSub (by decide) (by decide)⟩

/-- C10: a delivery error alone leaves the subscriber store unchanged: in
`bot.py` the `subscribed` flag changes only when the probe also raised
(probe success means no state change), and dispatch never touches
keywords or the watched-chat set; in `bot_webhook.py` dispatch never
modifies the store at all. -/
theorem c10_delivery_error_store_effects (tr : Transport) (t : Str) (uid : Nat)
    (info : UserInfo) (db : Db) (chat : ChatRec) (msg : Msg) :
    (tr.probeOk uid = true → (BotPoll.processUser tr t uid info).2 = info.subscribed)
    ∧ ((BotPoll.processUser tr t uid info).2 ≠ info.subscribed →
        info.subscribed = true ∧ (BotPoll.processUser tr t uid info).2 = false
          ∧ tr.probeOk uid = false
          ∧ (tr.headerOk uid = false ∨ tr.forwardOk uid = false))
    ∧ ((BotPoll.on_message tr db chat msg).2.users.map (fun p => (p.1, p.2.keywords))
        = db.users.map (fun p => (p.1, p.2.keywords)))
    ∧ ((BotPoll.on_message tr db chat msg).2.watched = db.watched)
    ∧ ((BotWebhook.on_message tr db chat msg).2 = db) := by
  refine ⟨?_, ?_, ?_, ?_, on_messageW_snd tr db chat msg⟩
  · intro hp
    rw [pu_snd]
    have hnc : ¬(info.subscribed = true ∧ (firstMatch t info.keywords).isSome = true
        ∧ (tr.headerOk uid = false ∨ tr.forwardOk uid = false)
        ∧ tr.probeOk uid = false) := by
      intro hc
      rw [hp] at hc
      exact absurd hc.2.2.2 (by simp)
    rw [if_neg hnc]
  · intro hne
    by_cases hcond : info.subscribed = true ∧ (firstMatch t info.keywords).isSome = true
        ∧ (tr.headerOk uid = false ∨ tr.forwardOk uid = false) ∧ tr.probeOk uid = false
    · refine ⟨hcond.1, ?_, hcond.2.2.2, hcond.2.2.1⟩
      rw [pu_snd, if_pos hcond]
    · rw [pu_snd, if_neg hcond] at hne
      exact absurd rfl hne
  · by_cases hw : watchedHas db chat.id = true
    · by_cases ht : (matchText msg).isEmpty = true
      · simp [BotPoll.on_message, hw, ht]
      · have ht' : (matchText msg).isEmpty = false := by simpa using ht
        rw [on_message_snd tr db chat msg hw ht']
        simp [List.map_map, Function.comp]
    · have hw' : watchedHas db chat.id = false := by simpa using hw
      simp [BotPoll.on_message, hw']
  · by_cases hw : watchedHas db chat.id = true
    · by_cases ht : (matchText msg).isEmpty = true
      · simp [BotPoll.on_message, hw, ht]
      · have ht' : (matchText msg).isEmpty = false := by simpa using ht
        rw [on_message_snd tr db chat msg hw ht']
    · have hw' : watchedHas db chat.id = false := by simpa using hw
      simp [BotPoll.on_message, hw']

/-- Witness for C10 at the failing-header transport, user 7 and `db1`. -/
theorem c10_delivery_error_store_effects_witness :
    (trHdrFail.probeOk 7 = true →
      (BotPoll.processUser trHdrFail (matchText msgA) 7 infoSub).2 = infoSub.subscribed)
    ∧ ((BotPoll.processUser trHdrFail (matchText msgA) 7 infoSub).2 ≠ infoSub.subscribed →
        infoSub.subscribed = true
          ∧ (BotPoll.processUser trHdrFail (matchText msgA) 7 infoSub).2 = false
          ∧ trHdrFail.probeOk 7 = false
          ∧ (trHdrFail.headerOk 7 = false ∨ trHdrFail.forwardOk 7 = false))
    ∧ ((BotPoll.on_message trHdrFail db1 chat1 msgA).2.users.map (fun p => (p.1, p.2.keywords))
        = db1.users.map (fun p => (p.1, p.2.keywords)))
    ∧ ((BotPoll.on_message trHdrFail db1 chat1 msgA).2.watched = db1.watched)
    ∧ ((BotWebhook.on_message trHdrFail db1 chat1 msgA).2 = db1) :=
  c10_delivery_error_store_effects trHdrFail (matchText msgA) 7 infoSub db1 chat1 msgA

lemma find?_key {α : Type} :
    ∀ (us : List (Nat × α)) (uid : Nat) (x : α),
      (us.map Prod.fst).Nodup → (uid, x) ∈ us →
        us.find? (fun p => p.1 == uid) = some (uid, x) := by
  intro us
  induction us with
  | nil => intro uid x _ hmem; simp at hmem
  | cons q rest ih =>
    intro uid x hnd hmem
    simp only [List.map_cons, List.nodup_cons] at hnd
    obtain ⟨hq_not, hnd_rest⟩ := hnd
    rcases List.mem_cons.mp hmem with heq | hmem'
    · rw [← heq]
      exact List.find?_cons_of_pos _ (by simp)
    · have hq : q.1 ≠ uid := by
        intro he
        apply hq_not
        rw [he]
        exact List.mem_map_of_mem Prod.fst hmem'
      rw [List.find?_cons_of_neg _ (by simp [hq])]
      exact ih uid x hnd_rest hmem'

lemma userKeywords_eq {db : Db} {uid : Nat} {info : UserInfo}
    (hnd : (db.users.map Prod.fst).Nodup) (hmem : (uid, info) ∈ db.users) :
    userKeywords db uid = info.keywords := by
  unfold userKeywords
  rw [find?_key db.users uid info hnd hmem]

lemma ensure_user_of_mem {db : Db} {uid : Nat}
    (h : db.users.any (fun p => p.1 == uid) = true) : ensure_user db uid = db := by
  unfold ensure_user
  rw [if_pos h]

lemma find?_append_none {α : Type} (p : α → Bool) (l₁ l₂ : List α)
    (h : l₁.find? p = none) : (l₁ ++ l₂).find? p = l₂.find? p := by
  rw [List.find?_append, h, Option.none_or]

lemma userKeywords_ensure (db : Db) (uid : Nat) :
    userKeywords (ensure_user db uid) uid = userKeywords db uid := by
  unfold ensure_user
  split
  · rfl
  · rename_i h
    unfold userKeywords
    have hnone : db.users.find? (fun p => p.1 == uid) = none := by
      rw [List.find?_eq_none]
      intro p hp hpe
      exact h (List.any_eq_true.mpr ⟨p, hp, hpe⟩)
    rw [find?_append_none _ _ _ hnone, hnone]
    simp

lemma ensure_keys_nodup (uid : Nat) {db : Db} (hnd : (db.users.map Prod.fst).Nodup) :
    ((ensure_user db uid).users.map Prod.fst).Nodup := by
  unfold ensure_user
  split
  · exact hnd
  · rename_i h
    simp only [List.map_append]
    rw [List.nodup_append]
    refine ⟨hnd, by simp, ?_⟩
    intro a ha hb
    simp at hb
    subst hb
    rw [List.mem_map] at ha
    obtain ⟨p, hp, hp1⟩ := ha
    exact h (List.any_eq_true.mpr ⟨p, hp, by simp [hp1]⟩)

lemma ensure_kwnodup (uid : Nat) {db : Db} (hkw : KwNodup db) :
    KwNodup (ensure_user db uid) := by
  unfold ensure_user
  split
  · exact hkw
  · intro p hp
    rcases List.mem_append.mp hp with h1 | h2
    · exact hkw p h1
    · simp at h2
      rw [h2]
      simp

lemma add_preserves_nodup {db : Db} {uid : Nat} {kw : Str}
    (hnd : (db.users.map Prod.fst).Nodup) (hkw : KwNodup db) :
    KwNodup (add_keyword_for_user db uid kw).1 := by
  have hnd1 := ensure_keys_nodup uid hnd
  have hkw1 := ensure_kwnodup uid hkw
  by_cases hc : kw ∈ userKeywords (ensure_user db uid) uid
  · simpa [add_keyword_for_user, hc] using hkw1
  · simp only [add_keyword_for_user, hc, if_neg, if_false, decide_eq_true_eq]
    split
    · exact hkw1
    · intro p hp
      simp only [List.mem_map] at hp
      obtain ⟨q, hq, rfl⟩ := hp
      by_cases hquid : (q.1 == uid) = true
      · have hq1 : q.1 = uid := by simpa using hquid
        have hqpair : (uid, q.2) ∈ (ensure_user db uid).users := by
          have hq' : (q.1, q.2) ∈ (ensure_user db uid).users := hq
          rw [hq1] at hq'
          exact hq'
        have hkeq : userKeywords (ensure_user db uid) uid = q.2.keywords :=
          userKeywords_eq hnd1 hqpair
        have hnotin : kw ∉ q.2.keywords := by
          rw [← hkeq]
          exact hc
        simp only [hquid, if_true, if_pos]
        rw [List.nodup_append]
        exact ⟨hkw1 q hq, by simp, by
          intro a ha hb
          simp at hb
          subst hb
          exact hnotin ha⟩
      · simp only [hquid, Bool.false_eq_true, if_false]
        exact hkw1 q hq

lemma del_preserves_nodup {db : Db} {uid : Nat} {kw : Str} (hkw : KwNodup db) :
    KwNodup (del_keyword_for_user db uid kw).1 := by
  have hkw1 := ensure_kwnodup uid hkw
  simp only [del_keyword_for_user]
  split
  · intro p hp
    simp only [List.mem_map] at hp
    obtain ⟨q, hq, rfl⟩ := hp
    by_cases hquid : (q.1 == uid) = true
    · simp only [hquid, if_true, if_pos]
      exact (hkw1 q hq).erase kw
    · simp only [hquid, Bool.false_eq_true, if_false]
      exact hkw1 q hq
  · exact hkw1

lemma delpall_preserves_nodup {db : Db} {uid : Nat} (hkw : KwNodup db) :
    KwNodup (delpall_for_user db uid) := by
  have hkw1 := ensure_kwnodup uid hkw
  intro p hp
  simp only [delpall_for_user, List.mem_map] at hp
  obtain ⟨q, hq, rfl⟩ := hp
  by_cases hquid : (q.1 == uid) = true
  · simp [hquid]
  · simp only [hquid, Bool.false_eq_true, if_false]
    exact hkw1 q hq

lemma on_message_preserves_nodup {db : Db} (tr : Transport) (chat : ChatRec) (msg : Msg)
    (hkw : KwNodup db) : KwNodup (BotPoll.on_message tr db chat msg).2 := by
  by_cases hw : watchedHas db chat.id = true
  · by_cases ht : (matchText msg).isEmpty = true
    · simpa [BotPoll.on_message, hw, ht] using hkw
    · have ht' : (matchText msg).isEmpty = false := by simpa using ht
      rw [on_message_snd tr db chat msg hw ht']
      intro p hp
      simp only [List.mem_map] at hp
      obtain ⟨q, hq, rfl⟩ := hp
      exact hkw q hq
  · have hw' : watchedHas db chat.id = false := by simpa using hw
    simpa [BotPoll.on_message, hw'] using hkw

lemma webhook_add_eq : BotWebhook.add_keyword = add_keyword_for_user := rfl

lemma add_dup_unchanged {db : Db} {uid : Nat} {kw : Str}
    (hc : (userKeywords db uid).contains kw = true) :
    add_keyword_for_user db uid kw = (db, false) := by
  have hfind : ∃ p, db.users.find? (fun p => p.1 == uid) = some p := by
    unfold userKeywords at hc
    cases hf : db.users.find? (fun p => p.1 == uid) with
    | some p => exact ⟨p, rfl⟩
    | none => rw [hf] at hc; simp at hc
  obtain ⟨p, hf⟩ := hfind
  have hmem := List.mem_of_find?_eq_some hf
  have hp1 := List.find?_some hf
  have hens : ensure_user db uid = db :=
    ensure_user_of_mem (List.any_eq_true.mpr ⟨p, hmem, hp1⟩)
  have hcm : kw ∈ userKeywords db uid := by simpa using hc
  simp [add_keyword_for_user, hens, hcm]

/-- C6: each subscriber's keyword list stays duplicate-free
(string-equal, pre-normalization) under every store operation, and a
duplicate add returns the "already exists" outcome, distinct from a
fresh add, leaving the store unchanged — in both variants. -/
theorem c6_keyword_uniqueness (db : Db) (uid : Nat) (kw : Str) (tr : Transport)
    (chat : ChatRec) (msg : Msg) (hnd : (db.users.map Prod.fst).Nodup) :
    (KwNodup db → KwNodup (add_keyword_for_user db uid kw).1)
    ∧ ((userKeywords db uid).contains kw = true →
        add_keyword_for_user db uid kw = (db, false))
    ∧ ((userKeywords db uid).contains kw = false →
        (add_keyword_for_user db uid kw).2 = true)
    ∧ (KwNodup db → KwNodup (del_keyword_for_user db uid kw).1)
    ∧ (KwNodup db → KwNodup (delpall_for_user db uid))
    ∧ (KwNodup db → KwNodup (BotPoll.on_message tr db chat msg).2)
    ∧ (KwNodup db → KwNodup (BotWebhook.add_keyword db uid kw).1)
    ∧ ((userKeywords db uid).contains kw = true →
        BotWebhook.add_keyword db uid kw = (db, false)) := by
  refine ⟨fun hkw => add_preserves_nodup hnd hkw, fun hc => add_dup_unchanged hc, ?_,
    fun hkw => del_preserves_nodup hkw, fun hkw => delpall_preserves_nodup hkw,
    fun hkw => on_message_preserves_nodup tr chat msg hkw,
    fun hkw => by rw [webhook_add_eq]; exact add_preserves_nodup hnd hkw,
    fun hc => by rw [webhook_add_eq]; exact add_dup_unchanged hc⟩
  intro hc
  have hc1 : kw ∉ userKeywords (ensure_user db uid) uid := by
    rw [userKeywords_ensure]
    simpa using hc
  simp [add_keyword_for_user, hc1]

/-- Witness for C6 at store `db1` (user 7 holds keyword "a"), keyword
"b". -/
theorem c6_keyword_uniqueness_witness :
    (db1.users.map Prod.fst).Nodup
    ∧ ((KwNodup db1 → KwNodup (add_keyword_for_user db1 7 ['b']).1)
      ∧ ((userKeywords db1 7).contains ['b'] = true →
          add_keyword_for_user db1 7 ['b'] = (db1, false))
      ∧ ((userKeywords db1 7).contains ['b'] = false →
          (add_keyword_for_user db1 7 ['b']).2 = true)
      ∧ (KwNodup db1 → KwNodup (del_keyword_for_user db1 7 ['b']).1)
      ∧ (KwNodup db1 → KwNodup (delpall_for_user db1 7))
      ∧ (KwNodup db1 → KwNodup (BotPoll.on_message trOk db1 chat1 msgA).2)
      ∧ (KwNodup db1 → KwNodup (BotWebhook.add_keyword db1 7 ['b']).1)
      ∧ ((userKeywords db1 7).contains ['b'] = true →
          BotWebhook.add_keyword db1 7 ['b'] = (db1, false))) :=
  ⟨by decide, c6_keyword_uniqueness db1 7 ['b'] trOk chat1 msgA (by decide)⟩

/-- C7 counterexample: the argument U+0301 (a lone combining acute
accent) is not blank, so `/addp` stores it (fresh-add outcome), yet its
normalized token set is empty and it matches every message text — the
blank-argument guard does not prevent stored empty-token-set keywords. -/
theorem c7_empty_tokenset_counterexample :
    stripStr (afterFirstSpace addpCmd) = markOnly
    ∧ (addp db0 7 addpCmd).2 = some true
    ∧ userKeywords (addp db0 7 addpCmd).1 7 = [markOnly]
    ∧ phraseTokens markOnly = []
    ∧ text_contains_all_tokens "qualquer oferta".toList markOnly = true := by decide

/-- C7 amended: the add-keyword command with a blank/empty argument is a
validation error in both variants — usage reply, store unchanged.  (This
guards blank arguments only; it does not guarantee that every stored
keyword has a non-empty normalized token set.) -/
theorem c7_amended_blank_rejected (db : Db) (uid : Nat) (t : Str)
    (h : stripStr (afterFirstSpace t) = []) :
    addp db uid t = (db, none) ∧ BotWebhook.cmd_addp db uid t = (db, none) := by
  constructor
  · simp [addp, h]
  · simp [BotWebhook.cmd_addp, h]

/-- Witness for the amended C7 at the command text `/addp` followed by
three spaces. -/
theorem c7_amended_blank_rejected_witness :
    stripStr (afterFirstSpace "/addp   ".toList) = []
    ∧ (addp db1 7 "/addp   ".toList = (db1, none)
        ∧ BotWebhook.cmd_addp db1 7 "/addp   ".toList = (db1, none)) :=
  ⟨by decide, c7_amended_blank_rejected db1 7 "/addp   ".toList (by decide)⟩

lemma sairgcFind_eq_find? (arg : Str) :
    ∀ l, BotPoll.sairgcFind arg l = l.find? (BotPoll.sairgcMatch arg) := by
  intro l
  induction l with
  | nil => rfl
  | cons c t ih =>
    by_cases h : BotPoll.sairgcMatch arg c = true
    · simp [BotPoll.sairgcFind, List.find?, h]
    · have h' : BotPoll.sairgcMatch arg c = false := by simpa using h
      simp [BotPoll.sairgcFind, List.find?, h', ih]

lemma sairgcFindW_eq_find? (arg : Str) :
    ∀ l, BotWebhook.sairgcFind arg l =
      (l.find? (BotWebhook.sairgcMatch arg)).map (fun c => c.id) := by
  intro l
  induction l with
  | nil => rfl
  | cons c t ih =>
    by_cases h : BotWebhook.sairgcMatch arg c = true
    · simp [BotWebhook.sairgcFind, List.find?, h]
    · have h' : BotWebhook.sairgcMatch arg c = false := by simpa using h
      simp [BotWebhook.sairgcFind, List.find?, h', ih]

/-- C9 counterexample: with watched chats `[chatT1, chatT2]` and argument
"20", the code's lookup returns `chatT1` (an earlier chat matching only
by title substring) while the spec's priority resolution — exact id match
first — returns `chatT2`; the two chats differ. -/
theorem c9_priority_counterexample :
    BotPoll.sairgcFind "20".toList [chatT1, chatT2] = some chatT1
    ∧ resolveByPriority [chatT1, chatT2] "20".toList = some chatT2
    ∧ chatT1 ≠ chatT2 := by decide

/-- C9 amended: the leave-chat lookup scans the watched chats in stored
order and selects the first chat satisfying any of its per-chat
heuristics as one disjunction (`bot.py`: exact id-string, exact handle,
case-insensitive title substring; `bot_webhook.py`: exact id-string,
case-insensitive exact title, case-insensitive "@"-prefixed handle) —
there is no cross-chat priority ordering among the heuristics. -/
theorem c9_amended_first_match_any (arg : Str) (l : List ChatRec) :
    (∀ c, BotPoll.sairgcFind arg l = some c ↔
        ∃ pre post, l = pre ++ c :: post ∧ BotPoll.sairgcMatch arg c = true
          ∧ ∀ x ∈ pre, BotPoll.sairgcMatch arg x = false)
    ∧ (∀ i, BotWebhook.sairgcFind arg l = some i ↔
        ∃ pre c post, l = pre ++ c :: post ∧ c.id = i
          ∧ BotWebhook.sairgcMatch arg c = true
          ∧ ∀ x ∈ pre, BotWebhook.sairgcMatch arg x = false) := by
  constructor
  · intro c
    rw [sairgcFind_eq_find?]
    constructor
    · intro h
      exact find?_first _ l c h
    · rintro ⟨pre, post, rfl, hc, hpre⟩
      exact find?_first_conv _ pre c post hc hpre
  · intro i
    rw [sairgcFindW_eq_find?]
    constructor
    · intro h
      rw [Option.map_eq_some'] at h
      obtain ⟨c, hfind, hid⟩ := h
      obtain ⟨pre, post, h1, h2, h3⟩ := find?_first _ l c hfind
      exact ⟨pre, c, post, h1, hid, h2, h3⟩
    · rintro ⟨pre, c, post, rfl, hid, hc, hpre⟩
      rw [find?_first_conv _ pre c post hc hpre]
      simp [hid]

/-- Witness for the amended C9 at argument "20" and the two-chat store
of the counterexample. -/
theorem c9_amended_first_match_any_witness :
    (∀ c, BotPoll.sairgcFind "20".toList [chatT1, chatT2] = some c ↔
        ∃ pre post, [chatT1, chatT2] = pre ++ c :: post
          ∧ BotPoll.sairgcMatch "20".toList c = true
          ∧ ∀ x ∈ pre, BotPoll.sairgcMatch "20".toList x = false)
    ∧ (∀ i, BotWebhook.sairgcFind "20".toList [chatT1, chatT2] = some i ↔
        ∃ pre c post, [chatT1, chatT2] = pre ++ c :: post ∧ c.id = i
          ∧ BotWebhook.sairgcMatch "20".toList c = true
          ∧ ∀ x ∈ pre, BotWebhook.sairgcMatch "20".toList x = false) :=
  c9_amended_first_match_any "20".toList [chatT1, chatT2]

end TgOfertas
